import Mathlib

/-!
Verification development for the Scholarly XML validation extension
(`src/extension.ts`).  The event-driven validation run (`parse`), the grammar
cache (`doValidation` + `parse` grammar phase), the doctype entity scanner,
the automaton-error position recovery, and the schematron path resolver
(`processXML` / `matchesXPath`) are shallowly embedded as executable Lean
functions; theorems below settle the specified properties against these
embeddings.

Modelling conventions:
* the external tokenizer (saxes) is modelled as a list of events, each
  carrying the tokenizer's reported `parser.line` / `parser.column` at the
  time the event fires;
* the external validation automaton (salve walker) is modelled as an
  abstract transition system `WalkerM` whose `fire` returns `none` (for
  `false`, no error) or `some errs`;
* JavaScript strings are modelled as Lean strings (character comparison by
  code point; the UTF-16 surrogate-order corner of `Array.prototype.sort`
  is outside the model), and the regular expressions of the source are
  translated by their exact matching semantics (`.` not matching the line
  terminators `\n`, `\r`, U+2028, U+2029; leftmost match; `$` anchoring at
  the very end of input).
-/

namespace SXML

/-- Error classification constants from `extension.ts` lines 10-13.
`ERR_WELLFORM` is the code's "malformed" classification, `ERR_VALID` the
"content invalid" (automaton rejected) classification, `ERR_SCHEMA` the
"schema invalid" classification. -/
inductive ErrType where
  | NO_ERR
  | ERR_VALID
  | ERR_WELLFORM
  | ERR_SCHEMA
deriving DecidableEq, Repr

/-- Which classifications proceed to the Constraint Engine (schematron):
the `switch` in `doValidation` (lines 509-524) calls
`doSchematronValidation` for `ERR_VALID`, `ERR_SCHEMA` and the default
(`NO_ERR`) case, but only a status message for `ERR_WELLFORM`. -/
def invokesConstraintEngine : ErrType → Bool
  | .ERR_VALID => true
  | .ERR_WELLFORM => false
  | .ERR_SCHEMA => true
  | .NO_ERR => true

/-- A diagnostic as pushed into the `diagnosticMap` (a `vscode.Range` plus
message); lines/columns are the 0-based numbers the code computes. -/
structure Diag where
  startLine : Nat
  startCol : Nat
  endLine : Nat
  endCol : Nat
  msg : String
deriving DecidableEq, Repr

/-- Automaton transitions fired through `fireEvent` (the event name plus
arguments given to `walker.fireEvent`). -/
inductive Transition where
  | enterStartTag (uri localName : String)
  | attributeName (uri localName : String)
  | attributeValue (value : String)
  | leaveStartTag
  | endTag (uri localName : String)
  | text (s : String)
deriving DecidableEq, Repr

/-- One attribute of a saxes start-tag node (`SaxesAttributeNS`): the
object key (qualified name), prefix, local name, resolved uri and value. -/
structure SaxesAttr where
  name : String
  pfx : String
  localName : String
  uri : String
  value : String
deriving DecidableEq, Repr

/-- A saxes start-tag node (`SaxesTag`): qualified name, resolved uri,
local name and the attribute objects (keys of `node.attributes`). -/
structure SaxesTag where
  name : String
  uri : String
  localName : String
  attributes : List SaxesAttr
deriving DecidableEq, Repr

/-- Order on attributes used by `names.sort()` in the opentag handler
(line 230): lexicographic comparison of the attribute (qualified) names. -/
def attrLE (a b : SaxesAttr) : Prop := a.name ≤ b.name

instance : DecidableRel attrLE := fun a b => by
  unfold attrLE; infer_instance

instance : IsTotal SaxesAttr attrLE := ⟨fun a b => le_total a.name b.name⟩

instance : IsTrans SaxesAttr attrLE := ⟨fun _ _ _ h h' => le_trans h h'⟩

/-- Sorting `names.sort()` on the attribute objects: the handler iterates the
attribute keys in sorted order; we sort the attribute list by key. -/
def sortAttrs (l : List SaxesAttr) : List SaxesAttr := l.insertionSort attrLE

/-- The namespace-declaration test of the opentag handler (lines 233-238):
`name === "xmlns"` declares the default prefix, `attr.prefix === "xmlns"`
declares `attr.local`; anything else is an ordinary attribute. -/
def nsOf (a : SaxesAttr) : Option (String × String) :=
  if a.name = "xmlns" then some ("", a.value)
  else if a.pfx = "xmlns" then some (a.localName, a.value)
  else none

/-- The single partition loop of the opentag handler (lines 231-243): fold
over the sorted attribute list, collecting namespace definitions and the
`attributeName` / `attributeValue` event pairs. -/
def openTagFold (node : SaxesTag) : List (String × String) × List Transition :=
  (sortAttrs node.attributes).foldl
    (fun acc a =>
      match nsOf a with
      | some d => (acc.1 ++ [d], acc.2)
      | none => (acc.1, acc.2 ++
          [Transition.attributeName a.uri a.localName,
           Transition.attributeValue a.value]))
    ([], [])

/-- Observable actions of the opentag handler, in execution order: name
resolver operations (`enterContext` / `definePrefix`) and walker
transitions. -/
inductive OpenAct where
  | enterContext
  | definePfx (p uri : String)
  | fire (t : Transition)
deriving DecidableEq, Repr

/-- The transitions fired for one start tag (lines 250-254):
`enterStartTag`, the attribute event pairs in sorted attribute-name order,
`leaveStartTag`. -/
def openFireList (node : SaxesTag) : List Transition :=
  Transition.enterStartTag node.uri node.localName ::
    (openTagFold node).2 ++ [Transition.leaveStartTag]

/-- The full observable action sequence of the opentag handler
(lines 227-254), excluding the initial text flush: namespace context push
and prefix definitions (lines 244-249) happen first, then the walker
transitions. -/
def openTagActs (node : SaxesTag) : List OpenAct :=
  let nsDefs := (openTagFold node).1
  (if nsDefs = [] then []
   else OpenAct.enterContext :: nsDefs.map (fun d => OpenAct.definePfx d.1 d.2)) ++
  (openFireList node).map OpenAct.fire

/-! ### Position recovery for automaton-reported errors (`fireEvent`, lines 176-197) -/

/-- The backward scan of `fireEvent` (lines 188-193): from index `i` down
to `0`, return the first index holding `'<'`; `0` when none is found (at
index `0` the loop returns `0` whether or not `'<'` is there, so that case
is folded into one equation). -/
def scanDown (cs : List Char) : Nat → Nat
  | 0 => 0
  | j + 1 => if cs.getD (j + 1) ' ' = '<' then j + 1 else scanDown cs j

/-- The `startColumn` computation of `fireEvent` (lines 180-194): start from
`errorCol0 = min (errorColumn - 1) (lineText.length - 1)` (the `- 1`
conversions performed in JavaScript arithmetic, so possibly negative) and
scan backward for `'<'`; `0` when the scan never runs or finds nothing. -/
def recoverStartCol (lineText : String) (errorColumn : Nat) : Nat :=
  let cs := lineText.toList
  let e0 : Int := min ((errorColumn : Int) - 1) ((cs.length : Int) - 1)
  if e0 < 0 then 0 else scanDown cs e0.toNat

/-- Modelled from the spec's words for comparison (C7): the greatest index
`i` strictly below both the error column and the line length holding
`'<'`, and `0` when there is none. -/
def nearestLtSpec (lineText : String) (errorColumn : Nat) : Nat :=
  let cs := lineText.toList
  ((List.range (min errorColumn cs.length)).filter
    (fun i => cs.getD i ' ' = '<')).getLastD 0

/-- The diagnostic built by `fireEvent` for one automaton error
(lines 177-208): line number `parser.line - 1`, start column from the
backward scan over the current line of the open document (an absent
document leaves `startColumn = 0`, which coincides with scanning an empty
line), end column `parser.column`. -/
def mkAutoDiag (docLines : List String) (line col : Nat) (m : String) : Diag :=
  let lineText := docLines.getD (line - 1) ""
  { startLine := line - 1
    startCol := recoverStartCol lineText col
    endLine := line - 1
    endCol := col
    msg := m }

/-! ### The validation run (`parse`, lines 134-345) -/

/-- The salve walker, abstracted: `fire` models `walker.fireEvent`
(returning `none` for `false` and `some errs` for an error array), `atEnd`
models `walker.end()` (returning `none` for `false`). -/
structure WalkerM (σ : Type) where
  fire : σ → Transition → σ × Option (List String)
  atEnd : σ → Option (List String)

/-- An entry of `tagStack` (the `TagInfo` type, lines 39-43). -/
structure TagInfo where
  uri : String
  localName : String
  hasContext : Bool
deriving DecidableEq, Repr

/-- Tokenizer events consumed by `parse`, each carrying the tokenizer's
current `parser.line` / `parser.column` where the handler (or the `catch`
block) reads them.  `tokError` stands for the saxes parser throwing on
malformed markup; `closeTag` carries the tokenizer's own closing-tag data
(which the handler ignores). -/
inductive Token where
  | openTag (node : SaxesTag) (line col : Nat)
  | text (s : String)
  | closeTag (uri localName : String) (line col : Nat)
  | doctype (s : String) (line col : Nat)
  | tokError (line col : Nat) (msg : String)
  | streamEnd (line col : Nat)
deriving DecidableEq, Repr

/-- The XML default entities preloaded in `parser.ENTITIES` by saxes;
`parser.ENTITIES[name] !== undefined` (line 299) sees these as defined. -/
def defaultEntities : List (String × String) :=
  [("amp", "&"), ("gt", ">"), ("lt", "<"), ("quot", "\""), ("apos", "\x27")]

/-- Mutable state of one `parse` run: walker state, classification
(`error`), `errorCount`, `tagStack`, `textBuf`, the name resolver's
context-stack depth, the registered entities, the accumulated diagnostics
and the log of fired transitions. -/
structure PState (σ : Type) where
  wst : σ
  error : ErrType
  errorCount : Nat
  tagStack : List TagInfo
  textBuf : String
  ctxDepth : Nat
  entities : List (String × String)
  diags : List Diag
  log : List Transition

/-- Initial state of a run (lines 161-222 set everything up empty). -/
def initState {σ : Type} (w0 : σ) : PState σ :=
  { wst := w0, error := .NO_ERR, errorCount := 0, tagStack := [],
    textBuf := "", ctxDepth := 0, entities := defaultEntities,
    diags := [], log := [] }

/-- Function `fireEvent` (lines 170-212): fire the transition; when the walker
returns an error array, set `error = ERR_VALID`, bump `errorCount`, and
append one diagnostic per error, located via the backward `'<'` scan at
the tokenizer's current position. -/
def fireEventM {σ : Type} (w : WalkerM σ) (docLines : List String)
    (line col : Nat) (st : PState σ) (t : Transition) : PState σ :=
  let r := w.fire st.wst t
  let st := { st with wst := r.1, log := st.log ++ [t] }
  match r.2 with
  | none => st
  | some errs =>
    { st with
        error := .ERR_VALID
        errorCount := st.errorCount + errs.length
        diags := st.diags ++ errs.map (mkAutoDiag docLines line col) }

/-- Function `flushTextBuf` (lines 217-222). -/
def flushText {σ : Type} (w : WalkerM σ) (docLines : List String)
    (line col : Nat) (st : PState σ) : PState σ :=
  if st.textBuf = "" then st
  else { fireEventM w docLines line col st (Transition.text st.textBuf)
         with textBuf := "" }

/-- Result of handling one token: either the next state, or a thrown
JavaScript exception (message plus the tokenizer position at the throw),
which the `catch` block of `parse` will receive.  On a throw the state
carries any `errorCount` increments performed before the `throw`
statement. -/
inductive StepRes (σ : Type) where
  | ok (st : PState σ)
  | thrown (msg : String) (line col : Nat) (st : PState σ)

/-! ### The doctype internal-subset entity scanner (lines 279-309) -/

/-- Line terminators that JavaScript `.` does not match (LF, CR, line
separator U+2028, paragraph separator U+2029). -/
def isLineTerm (c : Char) : Bool :=
  c = '\n' || c = '\r' || c.toNat = 0x2028 || c.toNat = 0x2029

/-- JavaScript `\s` (the characters relevant here; exotic unicode spaces
are outside the model). -/
def isJsSpace (c : Char) : Bool :=
  c = ' ' || c = '\t' || c = '\n' || c = '\r' || c = '\x0b' || c = '\x0c'

/-- Step `doctype.replace(/^.*?\[/, "")` (line 288): the lazy dot-star anchored
at the start matches up to the first `'['`, and only when no line
terminator precedes it (`.` cannot cross one); otherwise the string is
unchanged. -/
def stripToFirstBracket (s : List Char) : List Char :=
  let pre := s.takeWhile (fun c => c ≠ '[')
  if pre.length = s.length then s
  else if pre.any isLineTerm then s
  else s.drop (pre.length + 1)

/-- Step `.replace(/].*?$/, "")` (line 289): the leftmost `']'` whose suffix up
to the end of input contains no line terminator starts the match (the lazy
dot-star must still reach `$`, which anchors at the very end); everything
from that `']'` on is removed.  When no such `']'` exists the string is
unchanged. -/
def stripFromBracket : List Char → List Char
  | [] => []
  | c :: cs =>
    if c = ']' ∧ ¬ cs.any isLineTerm then []
    else c :: stripFromBracket cs

/-- Drop a literal prefix, returning the remainder on success. -/
def dropLit : List Char → List Char → Option (List Char)
  | [], s => some s
  | _ :: _, [] => none
  | p :: ps, c :: cs => if p = c then dropLit ps cs else none

/-- Find the leftmost occurrence of `pat` in `s`, returning the text
before it and the text after it. -/
def findSub (pat : List Char) : List Char → Option (List Char × List Char)
  | [] => (dropLit pat []).map (fun r => ([], r))
  | c :: cs =>
    match dropLit pat (c :: cs) with
    | some r => some ([], r)
    | none => (findSub pat cs).map (fun p => (c :: p.1, p.2))

/-- Step `.replace(/<!--(?:.|\n|\r)*?-->/g, "")` (line 290): repeatedly remove
the leftmost `<!--` together with the lazily-matched text up to the
nearest following `-->`; a `<!--` with no later `-->` matches nothing and
ends the scan.  The fuel argument bounds the recursion; `s.length` always
suffices since each removal consumes a nonempty `<!--`. -/
def stripCommentsF : Nat → List Char → List Char
  | 0, s => s
  | fuel + 1, s =>
    match findSub "<!--".toList s with
    | none => s
    | some (before, rest) =>
      match findSub "-->".toList rest with
      | none => s
      | some (_, after) => before ++ stripCommentsF fuel after

/-- JavaScript `String.prototype.trim` over the modelled space set. -/
def trimJs (s : List Char) : List Char :=
  ((s.dropWhile isJsSpace).reverse.dropWhile isJsSpace).reverse

/-- The `cleaned` doctype text (lines 287-291): strip before the first
`'['`, strip from the closing `']'`, strip comments, trim. -/
def cleanDoctype (s : String) : List Char :=
  let a := stripToFirstBracket s.toList
  let b := stripFromBracket a
  trimJs (stripCommentsF b.length b)

/-- Modelled from the spec's words for comparison (C9): "strip everything
before the first `[` and after the last `]`", then comments and trim as
the code does. -/
def cleanDoctypeSpec (s : String) : List Char :=
  let a := ((s.toList.dropWhile (fun c => c ≠ '[')).drop 1)
  let b := ((a.reverse.dropWhile (fun c => c ≠ ']')).drop 1).reverse
  trimJs (stripCommentsF b.length b)

/-- The entity pattern `^<!ENTITY\s+([^\s]+)\s+(['"])(.*?)\2\s*>\s*`
(line 279) applied at the front of the text: on success returns the entity
name, its value and the unconsumed remainder (the trailing `\s*` is part
of the match).  The lazy `(.*?)` runs to the first occurrence of the
opening quote and cannot cross a line terminator. -/
def entityParse (s : List Char) : Option (String × String × List Char) :=
  match dropLit "<!ENTITY".toList s with
  | none => none
  | some r1 =>
    if (r1.takeWhile isJsSpace).length = 0 then none else
    let r2 := r1.dropWhile isJsSpace
    let nm := r2.takeWhile (fun c => ¬ isJsSpace c)
    if nm.length = 0 then none else
    let r3 := r2.dropWhile (fun c => ¬ isJsSpace c)
    if (r3.takeWhile isJsSpace).length = 0 then none else
    match r3.dropWhile isJsSpace with
    | [] => none
    | q :: r5 =>
      if q = '"' ∨ q = '\x27' then
        let vl := r5.takeWhile (fun c => c ≠ q)
        if vl.any isLineTerm then none else
        match r5.dropWhile (fun c => c ≠ q) with
        | [] => none
        | _ :: r6 =>
          match r6.dropWhile isJsSpace with
          | '>' :: r8 => some (String.mk nm, String.mk vl, r8.dropWhile isJsSpace)
          | _ => none
      else none

/-- The `while (cleaned.length !== 0)` loop of the doctype handler
(lines 293-308).  On an error the `Bool` records whether the code executed
`errorCount++` before throwing (`true` only for the unexpected-construct
branch, line 305).  `orig` is the full doctype text interpolated into the
unexpected-construct message.  Fuel bounds the recursion; each iteration
consumes at least the `<!ENTITY` literal, so `cleaned.length` suffices. -/
def scanEntitiesF (orig : String) :
    Nat → List (String × String) → List Char → Except (String × Bool) (List (String × String))
  | _, ents, [] => .ok ents
  | 0, _, _ => .error ("unexpected construct in DOCTYPE: " ++ orig, true)
  | fuel + 1, ents, cleaned =>
    match entityParse cleaned with
    | some (n, v, rest) =>
      if (ents.lookup n).isSome then .error ("redefining entity: " ++ n, false)
      else scanEntitiesF orig fuel (ents ++ [(n, v)]) rest
    | none => .error ("unexpected construct in DOCTYPE: " ++ orig, true)

/-- The doctype handler (lines 281-309) applied to the registered entity
table: scan the cleaned internal subset, registering entities or throwing. -/
def handleDoctype (orig : String) (ents : List (String × String)) :
    Except (String × Bool) (List (String × String)) :=
  let cleaned := cleanDoctype orig
  scanEntitiesF orig (cleaned.length + 1) ents cleaned

/-- Handling of one tokenizer event by `parse` (the handlers registered on
lines 225-321, plus the saxes throw for malformed markup):
* `openTag` (lines 225-260): flush text, perform the namespace/attribute
  partition actions and fire the start-tag transitions, push a `TagInfo`;
* `text` (lines 262-264): append to `textBuf`;
* `closeTag` (lines 266-277): flush text, pop the frame (underflow bumps
  `errorCount` and throws), fire `endTag` with the frame's data, pop the
  namespace context if the frame recorded one;
* `doctype` (lines 279-309): run the entity scanner, throwing on failure;
* `tokError`: the tokenizer throws on malformed markup;
* `streamEnd` (lines 311-321): call `walker.end()`; a non-`false` result
  sets `error = ERR_WELLFORM` and adds its length to `errorCount` (the
  errors are only logged to the console, no diagnostics). -/
def applyAct {σ : Type} (w : WalkerM σ) (docLines : List String)
    (line col : Nat) (st : PState σ) : OpenAct → PState σ
  | .enterContext => { st with ctxDepth := st.ctxDepth + 1 }
  | .definePfx _ _ => st
  | .fire t => fireEventM w docLines line col st t

def step {σ : Type} (w : WalkerM σ) (docLines : List String)
    (st : PState σ) : Token → StepRes σ
  | .openTag node line col =>
    let st := flushText w docLines line col st
    let st := (openTagActs node).foldl (applyAct w docLines line col) st
    .ok { st with tagStack :=
      { uri := node.uri, localName := node.localName,
        hasContext := (openTagFold node).1 ≠ [] } :: st.tagStack }
  | .text s => .ok { st with textBuf := st.textBuf ++ s }
  | .closeTag _ _ line col =>
    let st := flushText w docLines line col st
    match st.tagStack with
    | [] => .thrown "stack underflow" line col
        { st with errorCount := st.errorCount + 1 }
    | ti :: rest =>
      let st := fireEventM w docLines line col
        { st with tagStack := rest } (Transition.endTag ti.uri ti.localName)
      .ok (if ti.hasContext then { st with ctxDepth := st.ctxDepth - 1 } else st)
  | .doctype s line col =>
    match handleDoctype s st.entities with
    | .ok ents => .ok { st with entities := ents }
    | .error (m, counted) => .thrown m line col
        { st with errorCount := st.errorCount + (if counted then 1 else 0) }
  | .tokError line col m => .thrown m line col st
  | .streamEnd _ _ =>
    match w.atEnd st.wst with
    | none => .ok st
    | some errs => .ok { st with
        error := .ERR_WELLFORM
        errorCount := st.errorCount + errs.length }

/-- Driving the tokenizer over the whole input: process tokens until one
throws (the `parser.write(xmlSource).close()` call on line 323). -/
def runTokens {σ : Type} (w : WalkerM σ) (docLines : List String)
    (st : PState σ) : List Token → StepRes σ
  | [] => .ok st
  | t :: ts =>
    match step w docLines st t with
    | .ok st' => runTokens w docLines st' ts
    | .thrown m line col st' => .thrown m line col st'

/-- Result of `parse` (lines 340-344): classification, error count and the
document's diagnostics, plus the transition log for the ordering claims. -/
structure ParseResult where
  errorType : ErrType
  errorCount : Nat
  diags : List Diag
  log : List Transition
deriving DecidableEq, Repr

/-- The whole validation run from `parser.write` through the `catch` block
(lines 224-344): a thrown exception is caught, `errorCount` is bumped, the
classification becomes `ERR_WELLFORM`, and one diagnostic with range
`(parser.line - 1, 0) .. (parser.line - 1, parser.column)` and the
exception message is appended. -/
def parseRun {σ : Type} (w : WalkerM σ) (w0 : σ) (docLines : List String)
    (tokens : List Token) : ParseResult :=
  match runTokens w docLines (initState w0) tokens with
  | .ok st => ⟨st.error, st.errorCount, st.diags, st.log⟩
  | .thrown m line col st =>
    ⟨.ERR_WELLFORM, st.errorCount + 1,
      st.diags ++ [⟨line - 1, 0, line - 1, col, m⟩], st.log⟩

/-- A walker that accepts everything (used for concrete runs). -/
def unitWalker : WalkerM Unit :=
  { fire := fun _ _ => ((), none), atEnd := fun _ => none }

/-! ### The grammar cache (`doValidation` lines 486-499, `parse` lines 143-159) -/

/-- A `StoredGrammar` record (lines 21-24), with the compiled grammar
abstracted to an arbitrary type `γ`. -/
structure StoredG (γ : Type) where
  rngURI : Option String
  grammar : Option γ
deriving DecidableEq, Repr

/-- The `grammarStore` (line 31): document URI to stored record. -/
abbrev GStore (γ : Type) := List (String × StoredG γ)

/-- Association-list update used to model property assignment on the
store object. -/
def storePut {γ : Type} (s : GStore γ) (uri : String) (g : StoredG γ) : GStore γ :=
  match s with
  | [] => [(uri, g)]
  | (k, v) :: rest => if k = uri then (k, g) :: rest else (k, v) :: storePut rest uri g

/-- Store lookup; a missing key behaves as the freshly-created empty
record (`grammarStore[_xmlURI] = {}`, line 491). -/
def storeGet {γ : Type} (s : GStore γ) (uri : String) : StoredG γ :=
  ((s.lookup uri).getD ⟨none, none⟩)

/-- The cache bookkeeping of `doValidation` (lines 490-499): create the
record, and when the stored schema reference differs from the located one,
clear the grammar, store the new reference and set `isNewSchema`. -/
def cacheUpdate {γ : Type} (s : GStore γ) (uri schema : String) : GStore γ × Bool :=
  let r := storeGet s uri
  if r.rngURI = some schema then (storePut s uri r, false)
  else (storePut s uri ⟨some schema, none⟩, true)

/-- The grammar phase of `parse` (lines 143-159) with the compiler
abstracted as `compile`: reuse the stored grammar unless the schema is
new; compile when there is no grammar; on success store it, on failure
return `ERR_SCHEMA` with the grammar left unset.  The returned `Nat`
counts the compilation calls (0 or 1). -/
def grammarPhase {γ : Type} (compile : String → Option γ) (s : GStore γ)
    (uri schema : String) (isNewSchema : Bool) : GStore γ × Nat × Option γ :=
  let r := storeGet s uri
  let tree0 : Option γ := if isNewSchema then none else r.grammar
  match tree0 with
  | some g => (storePut s uri { r with grammar := some g }, 0, some g)
  | none =>
    match compile schema with
    | some g => (storePut s uri { r with grammar := some g }, 1, some g)
    | none => (s, 1, none)

/-- One grammar resolution for a validation of `(uri, schema)`: the
`doValidation` cache bookkeeping followed by the grammar phase of
`parse`. -/
def resolveGrammar {γ : Type} (compile : String → Option γ) (s : GStore γ)
    (uri schema : String) : GStore γ × Nat × Option γ :=
  grammarPhase compile (cacheUpdate s uri schema).1 uri schema
    (cacheUpdate s uri schema).2

/-! ### The path resolver (`processXML` lines 379-433, `matchesXPath` lines 367-375) -/

/-- Tokenizer events of the second saxes pass, with the tokenizer's
current `parser.line` / `parser.column` where the handlers read them. -/
inductive PToken where
  | openTagStart (line col : Nat)
  | openTag (name : String) (line col : Nat)
  | closeTag
  | errorTok (msg : String)
deriving DecidableEq, Repr

/-- Digits of `\d+` converted as JavaScript `Number` does for decimal
digit strings. -/
def digitsToNat (ds : List Char) : Nat :=
  ds.foldl (fun n c => n * 10 + (c.toNat - '0'.toNat)) 0

/-- Matching `lastTag` against `/^(.*)\[(\d+)\]$/` (line 406): the string
must end with `']'`, preceded by a nonempty run of digits, preceded by
`'['`; the greedy `(.*)` takes everything before that last bracket group
and cannot contain a line terminator. -/
def parseIndexed (s : String) : Option (String × Nat) :=
  match s.toList.reverse with
  | ']' :: r1 =>
    let ds := r1.takeWhile Char.isDigit
    if ds.length = 0 then none
    else
      match r1.dropWhile Char.isDigit with
      | '[' :: r2 =>
        if r2.any isLineTerm then none
        else some (String.mk r2.reverse, digitsToNat ds.reverse)
      | _ => none
  | _ => none

/-- Rendering of one indexed path segment pushed on `currentPath`
(lines 408-410). -/
def renderSeg (name : String) (idx : Nat) : String :=
  name ++ "[" ++ toString idx ++ "]"

/-- Function `matchesXPath` (lines 367-375): equal length, and every
target segment equals the corresponding current segment or is `"*"`. -/
def matchesXPath (currentPath xpath : List String) : Bool :=
  currentPath.length == xpath.length &&
    (xpath.zip currentPath).all (fun p => p.1 == p.2 || p.1 == "*")

/-- The mutable traversal state of `processXML`: `currentPath` (in
document order, pushed/popped at the back), the single `lastTag` variable,
and `tagStartStack` (pushed/popped at the front here; the JavaScript array
pushes and pops at the back). -/
structure PxSt where
  currentPath : List String
  lastTag : Option String
  tagStartStack : List (Int × Int)
deriving DecidableEq, Repr

/-- The start-of-range and end-of-range data `(startLine, startColumn,
endLine, endColumn)`. -/
abbrev Range4 := Int × Int × Int × Int

/-- One `processXML` event handler (lines 392-429): `opentagstart` records
the position of the opening `'<'`; `opentag` pops it, computes the new
segment's occurrence index from the single `lastTag` variable, pushes the
segment, and reports the range when the full path matches; `closetag` pops
`currentPath` into `lastTag`; the `error` handler only logs.  The emitted
`Option Range4` is the range assignment performed in the match branch. -/
def pxStep (xpath : List String) (st : PxSt) : PToken → PxSt × Option Range4
  | .openTagStart line col =>
    ({ st with tagStartStack := ((line : Int) - 1, (col : Int) - 1) :: st.tagStartStack },
     none)
  | .openTag name line col =>
    match st.tagStartStack with
    | [] => (st, none)
    | ts :: rest =>
      let seg :=
        match st.lastTag.bind parseIndexed with
        | some (base, k) =>
          if base = name then renderSeg name (k + 1) else renderSeg name 1
        | none => renderSeg name 1
      let newPath := st.currentPath ++ [seg]
      let st' := { st with tagStartStack := rest, currentPath := newPath }
      (st', if matchesXPath newPath xpath
            then some (ts.1, ts.2, (line : Int) - 1, (col : Int) - 1)
            else none)
  | .closeTag =>
    ({ st with lastTag := st.currentPath.getLast?, currentPath := st.currentPath.dropLast },
     none)
  | .errorTok _ => (st, none)

/-- Initial `processXML` state. -/
def pxInit : PxSt := ⟨[], none, []⟩

/-- The sentinel result `(-1, -1, -1, -1)` (lines 386-389). -/
def pxSentinel : Range4 := (-1, -1, -1, -1)

/-- The fold of `processXML` over the token stream: each match overwrites
the four result variables. -/
def pxFold (xpath : List String) : PxSt → Range4 → List PToken → Range4
  | _, res, [] => res
  | st, res, t :: ts =>
    let (st', r) := pxStep xpath st t
    pxFold xpath st' (r.getD res) ts

/-- JavaScript `String.prototype.split('/')`: cut at every `'/'`
(structurally recursive so that concrete runs reduce in the kernel). -/
def splitSlash : List Char → List Char → List String
  | [], cur => [String.mk cur.reverse]
  | '/' :: rest, cur => String.mk cur.reverse :: splitSlash rest []
  | c :: rest, cur => splitSlash rest (c :: cur)

/-- The target path split `xpathExpression.split('/').filter(Boolean)`
(line 381). -/
def splitPath (xpathExpression : String) : List String :=
  (splitSlash xpathExpression.toList []).filter (fun s => s ≠ "")

/-- Function `processXML` (lines 379-433): replay the document's second
tokenizer pass and return the last recorded matching range, or the
sentinel `(-1, -1, -1, -1)`. -/
def processXML (tokens : List PToken) (xpathExpression : String) : Range4 :=
  pxFold (splitPath xpathExpression) pxInit pxSentinel tokens

/-- Modelled from the spec's words (amended C1): the ranges of all
matching start tags, in document order, over the same traversal state. -/
def matchRanges (xpath : List String) : PxSt → List PToken → List Range4
  | _, [] => []
  | st, t :: ts =>
    let (st', r) := pxStep xpath st t
    (r.toList) ++ matchRanges xpath st' ts

/-! ### Well-formed documents for the balance claim (C6) -/

mutual
/-- A well-formed element or text node. -/
inductive XTree where
  | elem (node : SaxesTag) (children : XForest)
  | txt (s : String)
/-- A forest of well-formed nodes. -/
inductive XForest where
  | nil
  | cons (t : XTree) (f : XForest)
end

mutual
/-- The token stream the tokenizer produces for a well-formed node: an
open tag, the children's tokens, a close tag (positions are irrelevant to
the balance claim and fixed at 1). -/
def serTree : XTree → List Token
  | .elem node f => Token.openTag node 1 1 :: (serForest f ++ [Token.closeTag node.uri node.localName 1 1])
  | .txt s => [Token.text s]
/-- Token stream of a forest. -/
def serForest : XForest → List Token
  | .nil => []
  | .cons t f => serTree t ++ serForest f
end

/-! ### Helper lemmas -/

/-- The partition fold, characterised: namespace definitions are the
`filterMap` of the declaration test, attribute events the paired
transitions of the remaining attributes, both in list order. -/
theorem foldPartition (l : List SaxesAttr) (ns : List (String × String))
    (ev : List Transition) :
    l.foldl
      (fun acc a =>
        match nsOf a with
        | some d => (acc.1 ++ [d], acc.2)
        | none => (acc.1, acc.2 ++
            [Transition.attributeName a.uri a.localName,
             Transition.attributeValue a.value]))
      (ns, ev) =
      (ns ++ l.filterMap nsOf,
       ev ++ (l.filter (fun a => (nsOf a).isNone)).flatMap
         (fun a => [Transition.attributeName a.uri a.localName,
                    Transition.attributeValue a.value])) := by
  induction l generalizing ns ev with
  | nil => simp
  | cons a l ih =>
    cases h : nsOf a with
    | some d => simp [List.foldl_cons, h, ih, List.filterMap_cons, List.filter_cons]
    | none => simp [List.foldl_cons, h, ih, List.filterMap_cons, List.filter_cons]

/-- Characterisation of `openTagFold`. -/
theorem openTagFold_eq (node : SaxesTag) :
    openTagFold node =
      ((sortAttrs node.attributes).filterMap nsOf,
       ((sortAttrs node.attributes).filter (fun a => (nsOf a).isNone)).flatMap
         (fun a => [Transition.attributeName a.uri a.localName,
                    Transition.attributeValue a.value])) := by
  unfold openTagFold
  simpa using foldPartition (sortAttrs node.attributes) [] []

/-- The backward scan from index `e`, characterised as the greatest index
in `0..e` holding `'<'`, with default `0`. -/
theorem scanDown_eq (cs : List Char) (e : Nat) :
    scanDown cs e =
      ((List.range (e + 1)).filter (fun i => cs.getD i ' ' = '<')).getLastD 0 := by
  induction e with
  | zero =>
    show 0 = _
    rw [List.range_succ, List.range_zero, List.nil_append]
    by_cases h : cs.getD 0 ' ' = '<'
    · rw [List.filter_cons_of_pos (by simpa using h)]; rfl
    · rw [List.filter_cons_of_neg (by simpa using h)]; rfl
  | succ j ih =>
    rw [List.range_succ, List.filter_append]
    by_cases h : cs.getD (j + 1) ' ' = '<'
    · rw [List.filter_cons_of_pos (by simpa using h), List.filter_nil,
        List.getLastD_concat]
      show (if cs.getD (j + 1) ' ' = '<' then j + 1 else scanDown cs j) = j + 1
      rw [if_pos h]
    · rw [List.filter_cons_of_neg (by simpa using h), List.filter_nil,
        List.append_nil]
      show (if cs.getD (j + 1) ' ' = '<' then j + 1 else scanDown cs j) = _
      rw [if_neg h, ih]

/-- The loop of `fireEvent` computes exactly the spec-side nearest-`'<'`
column. -/
theorem recoverStartCol_eq_spec (lineText : String) (c : Nat) :
    recoverStartCol lineText c = nearestLtSpec lineText c := by
  have key : ∀ (cs : List Char),
      (if (min ((c : Int) - 1) ((cs.length : Int) - 1)) < 0 then 0
       else scanDown cs (min ((c : Int) - 1) ((cs.length : Int) - 1)).toNat) =
      ((List.range (min c cs.length)).filter
        (fun i => cs.getD i ' ' = '<')).getLastD 0 := by
    intro cs
    rcases Nat.eq_zero_or_pos c with hc | hc
    · rw [if_pos (by omega), hc]
      simp
    · rcases Nat.eq_zero_or_pos cs.length with hl | hl
      · rw [if_pos (by omega), hl]
        simp
      · rw [if_neg (by omega)]
        have h1 : (min ((c : Int) - 1) ((cs.length : Int) - 1)).toNat
            = min (c - 1) (cs.length - 1) := by omega
        have h2 : min (c - 1) (cs.length - 1) + 1 = min c cs.length := by omega
        rw [h1, scanDown_eq, h2]
  simpa [recoverStartCol, nearestLtSpec] using key lineText.toList

/-! ### Claim C4 -/

/-- C4 (confirmed): on every start tag the run partitions the attributes
into namespace declarations and ordinary attributes (both taken in sorted
attribute-name order), performs the namespace-scope push and every prefix
definition strictly before any walker transition of the tag (so before the
tag's own name or any attribute is resolved), and fires, in order,
`enterStartTag`, then per ordinary attribute in lexicographic
attribute-name order an `attributeName` followed by its `attributeValue`,
then `leaveStartTag`; the ordinary attributes really are sorted. -/
theorem claim4_start_tag_order (node : SaxesTag) :
    openTagActs node =
      (if (sortAttrs node.attributes).filterMap nsOf = [] then []
       else OpenAct.enterContext ::
         ((sortAttrs node.attributes).filterMap nsOf).map
           (fun d => OpenAct.definePfx d.1 d.2)) ++
      OpenAct.fire (Transition.enterStartTag node.uri node.localName) ::
      ((sortAttrs node.attributes).filter (fun a => (nsOf a).isNone)).flatMap
        (fun a => [OpenAct.fire (Transition.attributeName a.uri a.localName),
                   OpenAct.fire (Transition.attributeValue a.value)]) ++
      [OpenAct.fire Transition.leaveStartTag] ∧
    List.Sorted attrLE
      ((sortAttrs node.attributes).filter (fun a => (nsOf a).isNone)) := by
  constructor
  · unfold openTagActs openFireList
    rw [openTagFold_eq]
    simp [List.map_flatMap]
  · exact List.Sorted.filter _ (List.sorted_insertionSort attrLE node.attributes)

/-! ### Claim C7 -/

/-- C7 (confirmed): every automaton-error diagnostic takes its start
column from the nearest `'<'` found scanning the current line backward
from the tokenizer's current column (`0` when there is none), its end
column from the tokenizer's current column, and both its lines from the
tokenizer's current line. -/
theorem claim7_position_recovery (docLines : List String) (line col : Nat)
    (m : String) :
    mkAutoDiag docLines line col m =
      { startLine := line - 1
        startCol := nearestLtSpec (docLines.getD (line - 1) "") col
        endLine := line - 1
        endCol := col
        msg := m } := by
  show { startLine := line - 1
         startCol := recoverStartCol (docLines.getD (line - 1) "") col
         endLine := line - 1
         endCol := col
         msg := m : Diag } = _
  rw [recoverStartCol_eq_spec]

/-! ### Path resolver lemmas and claims C1, C10 -/

/-- The overwrite fold of `processXML` returns the last collected match,
or the initial value when there is none. -/
theorem pxFold_eq_matchRanges (xpath : List String) (ts : List PToken)
    (st : PxSt) (res : Range4) :
    pxFold xpath st res ts = (matchRanges xpath st ts).getLastD res := by
  induction ts generalizing st res with
  | nil => rfl
  | cons t ts ih =>
    show pxFold xpath (pxStep xpath st t).1 ((pxStep xpath st t).2.getD res) ts
      = (((pxStep xpath st t).2.toList) ++
          matchRanges xpath (pxStep xpath st t).1 ts).getLastD res
    cases h : (pxStep xpath st t).2 with
    | none =>
      show pxFold xpath (pxStep xpath st t).1 res ts
        = (matchRanges xpath (pxStep xpath st t).1 ts).getLastD res
      exact ih _ _
    | some r =>
      show pxFold xpath (pxStep xpath st t).1 r ts
        = (r :: matchRanges xpath (pxStep xpath st t).1 ts).getLastD res
      rw [ih, List.getLastD_cons]

/-- Test for the error events the `processXML` error listener swallows. -/
def isErrTok : PToken → Bool
  | .errorTok _ => true
  | _ => false

/-- Error events leave the traversal state untouched and emit nothing. -/
theorem pxFold_filter_errors (xpath : List String) (ts : List PToken)
    (st : PxSt) (res : Range4) :
    pxFold xpath st res (ts.filter (fun t => ¬ isErrTok t)) =
      pxFold xpath st res ts := by
  induction ts generalizing st res with
  | nil => rfl
  | cons t ts ih =>
    cases t with
    | errorTok m => simpa [List.filter_cons, isErrTok, pxFold] using ih st res
    | openTagStart l c => simpa [List.filter_cons, isErrTok, pxFold] using ih _ _
    | openTag n l c => simpa [List.filter_cons, isErrTok, pxFold] using ih _ _
    | closeTag => simpa [List.filter_cons, isErrTok, pxFold] using ih _ _

/-- Token stream of `<r><a/><b><a/></b></r>` (one line; positions as the
tokenizer reports them). -/
def pxDocNested : List PToken :=
  [.openTagStart 1 1, .openTag "r" 1 3,
   .openTagStart 1 4, .openTag "a" 1 8, .closeTag,
   .openTagStart 1 9, .openTag "b" 1 12,
   .openTagStart 1 13, .openTag "a" 1 17, .closeTag,
   .closeTag, .closeTag]

/-- Token stream of `<r><a/><a/></r>`. -/
def pxDocSiblings : List PToken :=
  [.openTagStart 1 1, .openTag "r" 1 3,
   .openTagStart 1 4, .openTag "a" 1 8, .closeTag,
   .openTagStart 1 9, .openTag "a" 1 13, .closeTag,
   .closeTag]

/-- Token stream of `<root><a/><a/></root>` (the spec §8 scenario). -/
def pxDocRootAA : List PToken :=
  [.openTagStart 1 1, .openTag "root" 1 6,
   .openTagStart 1 7, .openTag "a" 1 11, .closeTag,
   .openTagStart 1 12, .openTag "a" 1 16, .closeTag,
   .closeTag]

/-- C1 (counterexample): the claim fails on the code in two ways.  In
`<r><a/><b><a/></b></r>` the inner `<a/>` is the first `a` child of `b`,
so under per-depth sibling tracking its indexed path is `r[1]/b[1]/a[1]`;
the code instead carries the single `lastTag` variable across depths (the
`<a/>` closed at depth 1 leaks into depth 2), computes `a[2]`, and the
target `r[1]/b[1]/a[1]` finds nothing while `r[1]/b[1]/a[2]` finds the
inner tag.  In `<r><a/><a/></r>` with target `r[1]/*` both `a` tags match
and the returned range `(0, 8, 0, 12)` is the second (last) tag's, not the
first's `(0, 3, 0, 7)`. -/
theorem claim1_counterexample :
    processXML pxDocNested "r[1]/b[1]/a[1]" = pxSentinel ∧
    processXML pxDocNested "r[1]/b[1]/a[2]" = ((0, 12, 0, 16) : Range4) ∧
    processXML pxDocSiblings "r[1]/*" = ((0, 8, 0, 12) : Range4) ∧
    matchRanges (splitPath "r[1]/*") pxInit pxDocSiblings =
      [((0, 3, 0, 7) : Range4), ((0, 8, 0, 12) : Range4)] ∧
    ((0, 8, 0, 12) : Range4) ≠ ((0, 3, 0, 7) : Range4) := by
  refine ⟨by decide, by decide, by decide, by decide, by decide⟩

/-- C1 (amended): the Path Resolver computes each start tag's occurrence
index from the single most recently closed tag anywhere in the document
(not per nesting depth): previous closed tag's index + 1 when that tag has
the same name, else 1; a tag matches when the current indexed-path stack
has the target's length and each target segment equals the corresponding
rendered `name[index]` segment or is `*`; and the resolver returns the
range of the *last* matching tag in document order — from the recorded
opening `<` position to just after the closing `>` — formalised as: the
result is the last element of the document-ordered list of matching-tag
ranges, with the sentinel as default.  The spec §8 scenario
(`<root><a/><a/></root>`, target `root[1]/a[2]`) locates the second
`<a/>`. -/
theorem claim1_amended_path_resolver :
    (∀ (ts : List PToken) (expr : String),
      processXML ts expr =
        (matchRanges (splitPath expr) pxInit ts).getLastD pxSentinel) ∧
    processXML pxDocRootAA "root[1]/a[2]" = ((0, 11, 0, 15) : Range4) ∧
    matchRanges (splitPath "root[1]/a[2]") pxInit pxDocRootAA =
      [((0, 11, 0, 15) : Range4)] := by
  refine ⟨fun ts expr => ?_, by decide, by decide⟩
  exact pxFold_eq_matchRanges _ ts pxInit pxSentinel

/-- C10 (confirmed): the Path Resolver's second pass is total and
error-tolerant — tokenizer error events are swallowed (removing them does
not change the result, they only get logged), the function always returns
a four-component tuple, and when no tag matches the target path it returns
the sentinel `(-1, -1, -1, -1)`. -/
theorem claim10_path_resolver_safety :
    (∀ (ts : List PToken) (expr : String),
      processXML (ts.filter (fun t => ¬ isErrTok t)) expr = processXML ts expr) ∧
    (∀ (ts : List PToken) (expr : String),
      matchRanges (splitPath expr) pxInit ts = [] →
      processXML ts expr = pxSentinel) := by
  constructor
  · intro ts expr
    exact pxFold_filter_errors _ ts pxInit pxSentinel
  · intro ts expr h
    unfold processXML
    rw [pxFold_eq_matchRanges, h]
    rfl

/-- Witness for C10: a malformed-document stream whose error event is
swallowed, and a no-match query returning the sentinel. -/
theorem claim10_path_resolver_safety_witness :
    processXML ([PToken.openTagStart 1 1, PToken.openTag "r" 1 3,
        PToken.errorTok "boom", PToken.closeTag].filter (fun t => ¬ isErrTok t)) "q" =
      processXML [PToken.openTagStart 1 1, PToken.openTag "r" 1 3,
        PToken.errorTok "boom", PToken.closeTag] "q" ∧
    processXML [PToken.openTagStart 1 1, PToken.openTag "r" 1 3,
        PToken.errorTok "boom", PToken.closeTag] "q" = pxSentinel :=
  ⟨claim10_path_resolver_safety.1 _ "q",
   claim10_path_resolver_safety.2 _ "q" (by decide)⟩

/-! ### Validation-run state lemmas -/

/-- Firing one transition appends it to the log and leaves the tag stack,
text buffer, context depth and entity table untouched. -/
theorem fireEventM_state {σ : Type} (w : WalkerM σ) (d : List String)
    (line col : Nat) (st : PState σ) (t : Transition) :
    (fireEventM w d line col st t).log = st.log ++ [t] ∧
    (fireEventM w d line col st t).tagStack = st.tagStack ∧
    (fireEventM w d line col st t).textBuf = st.textBuf ∧
    (fireEventM w d line col st t).ctxDepth = st.ctxDepth ∧
    (fireEventM w d line col st t).entities = st.entities := by
  simp only [fireEventM]
  cases hw : (w.fire st.wst t).2 <;> simp [hw]

/-- The flushed transitions: empty buffer flushes nothing, otherwise one
text transition carrying the whole buffer. -/
def flushPart (buf : String) : List Transition :=
  if buf = "" then [] else [Transition.text buf]

/-- Flushing empties the buffer, appends the flushed transitions to the
log and leaves the rest of the state untouched. -/
theorem flushText_state {σ : Type} (w : WalkerM σ) (d : List String)
    (line col : Nat) (st : PState σ) :
    (flushText w d line col st).log = st.log ++ flushPart st.textBuf ∧
    (flushText w d line col st).textBuf = "" ∧
    (flushText w d line col st).tagStack = st.tagStack ∧
    (flushText w d line col st).ctxDepth = st.ctxDepth ∧
    (flushText w d line col st).entities = st.entities := by
  unfold flushText flushPart
  by_cases h : st.textBuf = ""
  · rw [if_pos h, if_pos h, h]
    exact ⟨by simp, rfl, rfl, rfl, rfl⟩
  · rw [if_neg h, if_neg h]
    obtain ⟨h1, h2, h3, h4, h5⟩ :=
      fireEventM_state w d line col st (Transition.text st.textBuf)
    exact ⟨h1, rfl, h2, h4, h5⟩

/-- Folding the walker over a transition list appends the list to the log
and leaves the rest of the state untouched. -/
theorem foldl_fireEventM_state {σ : Type} (w : WalkerM σ) (d : List String)
    (line col : Nat) (ts : List Transition) (st : PState σ) :
    ((ts.foldl (fireEventM w d line col) st).log = st.log ++ ts) ∧
    ((ts.foldl (fireEventM w d line col) st).tagStack = st.tagStack) ∧
    ((ts.foldl (fireEventM w d line col) st).textBuf = st.textBuf) ∧
    ((ts.foldl (fireEventM w d line col) st).ctxDepth = st.ctxDepth) ∧
    ((ts.foldl (fireEventM w d line col) st).entities = st.entities) := by
  induction ts generalizing st with
  | nil => simp
  | cons t ts ih =>
    obtain ⟨h1, h2, h3, h4, h5⟩ := fireEventM_state w d line col st t
    obtain ⟨g1, g2, g3, g4, g5⟩ := ih (fireEventM w d line col st t)
    refine ⟨?_, ?_, ?_, ?_, ?_⟩ <;>
      simp [List.foldl_cons, g1, g2, g3, g4, g5, h1, h2, h3, h4, h5]

/-- Folding `applyAct` over the opentag action list fires exactly the
start-tag transitions, bumps the context depth exactly when a namespace
scope is pushed, and leaves stack, buffer and entities untouched. -/
theorem foldl_applyAct_openTagActs {σ : Type} (w : WalkerM σ) (d : List String)
    (line col : Nat) (node : SaxesTag) (st : PState σ) :
    (((openTagActs node).foldl (applyAct w d line col) st).log
        = st.log ++ openFireList node) ∧
    (((openTagActs node).foldl (applyAct w d line col) st).tagStack = st.tagStack) ∧
    (((openTagActs node).foldl (applyAct w d line col) st).textBuf = st.textBuf) ∧
    (((openTagActs node).foldl (applyAct w d line col) st).ctxDepth
        = st.ctxDepth + (if (openTagFold node).1 = [] then 0 else 1)) ∧
    (((openTagActs node).foldl (applyAct w d line col) st).entities = st.entities) := by
  have hmapfire : ∀ (ts : List Transition) (s : PState σ),
      (ts.map OpenAct.fire).foldl (applyAct w d line col) s
        = ts.foldl (fireEventM w d line col) s := by
    intro ts
    induction ts with
    | nil => intro s; rfl
    | cons t ts ih => intro s; simpa [List.foldl_cons, applyAct] using ih _
  have hdefs : ∀ (ds : List (String × String)) (s : PState σ),
      (ds.map (fun dd => OpenAct.definePfx dd.1 dd.2)).foldl
        (applyAct w d line col) s = s := by
    intro ds
    induction ds with
    | nil => intro s; rfl
    | cons dd ds ih => intro s; simpa [List.foldl_cons, applyAct] using ih s
  unfold openTagActs
  rw [List.foldl_append, hmapfire]
  by_cases h : (openTagFold node).1 = []
  · rw [if_pos h, if_pos h]
    simp only [List.foldl_nil]
    obtain ⟨g1, g2, g3, g4, g5⟩ :=
      foldl_fireEventM_state w d line col (openFireList node) st
    exact ⟨g1, g2, g3, by omega, g5⟩
  · rw [if_neg h, if_neg h, List.foldl_cons, hdefs]
    obtain ⟨g1, g2, g3, g4, g5⟩ :=
      foldl_fireEventM_state w d line col (openFireList node)
        (applyAct w d line col st .enterContext)
    refine ⟨g1, g2, g3, ?_, g5⟩
    rw [g4]
    simp [applyAct]

/-- Start-tag step, characterised: the pending text is flushed first, the
start-tag transitions are fired, a frame recording whether a namespace
scope was pushed is pushed, and the context depth grows exactly when the
tag declared a namespace. -/
theorem step_openTag_state {σ : Type} (w : WalkerM σ) (d : List String)
    (st : PState σ) (node : SaxesTag) (line col : Nat) :
    ∃ st', step w d st (Token.openTag node line col) = .ok st' ∧
      st'.log = st.log ++ flushPart st.textBuf ++ openFireList node ∧
      st'.textBuf = "" ∧
      st'.tagStack =
        (⟨node.uri, node.localName, (openTagFold node).1 ≠ []⟩ : TagInfo) :: st.tagStack ∧
      st'.ctxDepth = st.ctxDepth + (if (openTagFold node).1 = [] then 0 else 1) ∧
      st'.entities = st.entities := by
  obtain ⟨f1, f2, f3, f4, f5⟩ := flushText_state w d line col st
  obtain ⟨g1, g2, g3, g4, g5⟩ :=
    foldl_applyAct_openTagActs w d line col node (flushText w d line col st)
  refine ⟨_, rfl, ?_, ?_, ?_, ?_, ?_⟩ <;>
    simp [g1, g2, g3, g4, g5, f1, f2, f3, f4, f5, List.append_assoc]

/-- End-tag step with a nonempty frame stack, characterised: text is
flushed first, the frame (not the tokenizer's closing-tag data) supplies
the `endTag` transition's names, and the context is popped exactly when
the frame recorded one. -/
theorem step_closeTag_pop {σ : Type} (w : WalkerM σ) (d : List String)
    (st : PState σ) (ti : TagInfo) (rest : List TagInfo)
    (u lo : String) (line col : Nat) (h : st.tagStack = ti :: rest) :
    ∃ st', step w d st (Token.closeTag u lo line col) = .ok st' ∧
      st'.log = st.log ++ flushPart st.textBuf ++
        [Transition.endTag ti.uri ti.localName] ∧
      st'.textBuf = "" ∧
      st'.tagStack = rest ∧
      st'.ctxDepth = st.ctxDepth - (if ti.hasContext then 1 else 0) ∧
      st'.entities = st.entities := by
  obtain ⟨f1, f2, f3, f4, f5⟩ := flushText_state w d line col st
  have hflush : (flushText w d line col st).tagStack = ti :: rest := by rw [f3, h]
  obtain ⟨e1, e2, e3, e4, e5⟩ := fireEventM_state w d line col
    { flushText w d line col st with tagStack := rest }
    (Transition.endTag ti.uri ti.localName)
  have E1 : (fireEventM w d line col
      { flushText w d line col st with tagStack := rest }
      (Transition.endTag ti.uri ti.localName)).log
      = st.log ++ flushPart st.textBuf ++ [Transition.endTag ti.uri ti.localName] := by
    rw [e1]
    exact congrArg (fun l => l ++ [Transition.endTag ti.uri ti.localName]) f1
  have E2 : (fireEventM w d line col
      { flushText w d line col st with tagStack := rest }
      (Transition.endTag ti.uri ti.localName)).tagStack = rest := e2
  have E3 : (fireEventM w d line col
      { flushText w d line col st with tagStack := rest }
      (Transition.endTag ti.uri ti.localName)).textBuf = "" := e3.trans f2
  have E4 : (fireEventM w d line col
      { flushText w d line col st with tagStack := rest }
      (Transition.endTag ti.uri ti.localName)).ctxDepth = st.ctxDepth := e4.trans f4
  have E5 : (fireEventM w d line col
      { flushText w d line col st with tagStack := rest }
      (Transition.endTag ti.uri ti.localName)).entities = st.entities := e5.trans f5
  simp only [step, hflush]
  cases hc : ti.hasContext
  · exact ⟨_, rfl, E1, E3, E2, E4, E5⟩
  · exact ⟨_, rfl, E1, E3, E2, congrArg (fun n => n - 1) E4, E5⟩

/-- End-tag step on an empty frame stack: the pending text is still
flushed, then the handler bumps `errorCount` and throws `stack underflow`
at the tokenizer's current position. -/
theorem step_closeTag_underflow {σ : Type} (w : WalkerM σ) (d : List String)
    (st : PState σ) (u lo : String) (line col : Nat) (h : st.tagStack = []) :
    step w d st (Token.closeTag u lo line col) =
      .thrown "stack underflow" line col
        { flushText w d line col st with
          errorCount := (flushText w d line col st).errorCount + 1 } := by
  obtain ⟨f1, f2, f3, f4, f5⟩ := flushText_state w d line col st
  have hflush : (flushText w d line col st).tagStack = [] := by rw [f3, h]
  simp only [step, hflush]

/-- Stream-end step: the automaton's end-of-input check either passes
(state unchanged) or reclassifies the run as `ERR_WELLFORM`, adding the
errors to the count but producing no diagnostics and no transitions. -/
theorem step_streamEnd_state {σ : Type} (w : WalkerM σ) (d : List String)
    (st : PState σ) (line col : Nat) :
    (w.atEnd st.wst = none → step w d st (Token.streamEnd line col) = .ok st) ∧
    (∀ errs, w.atEnd st.wst = some errs →
      step w d st (Token.streamEnd line col) =
        .ok { st with error := .ERR_WELLFORM,
                      errorCount := st.errorCount + errs.length }) := by
  constructor
  · intro h; simp only [step, h]
  · intro errs h; simp only [step, h]

/-- Splitting a token run at an exception: processing `ts1 ++ ts2` runs
`ts1` first and continues with `ts2` only when nothing was thrown. -/
theorem runTokens_append {σ : Type} (w : WalkerM σ) (d : List String)
    (st : PState σ) (ts1 ts2 : List Token) :
    runTokens w d st (ts1 ++ ts2) =
      match runTokens w d st ts1 with
      | .ok st' => runTokens w d st' ts2
      | .thrown m line col st' => .thrown m line col st' := by
  induction ts1 generalizing st with
  | nil => rfl
  | cons t ts ih =>
    show runTokens w d st (t :: (ts ++ ts2)) = _
    simp only [runTokens]
    cases step w d st t with
    | ok st' => exact ih st'
    | thrown m line col st' => rfl

mutual
/-- Processing the serialisation of one well-formed node preserves the
context depth and the frame stack and never throws. -/
theorem runTokens_serTree {σ : Type} (w : WalkerM σ) (d : List String) :
    ∀ (t : XTree) (st : PState σ),
      ∃ st', runTokens w d st (serTree t) = .ok st' ∧
        st'.ctxDepth = st.ctxDepth ∧ st'.tagStack = st.tagStack
  | .txt s, st => by
    refine ⟨_, rfl, rfl, rfl⟩
  | .elem node f, st => by
    obtain ⟨st1, ho, h1log, h1buf, h1stack, h1ctx, h1ents⟩ :=
      step_openTag_state w d st node 1 1
    obtain ⟨st2, hf, h2ctx, h2stack⟩ := runTokens_serForest w d f st1
    have hstack2 : st2.tagStack =
        { uri := node.uri, localName := node.localName,
          hasContext := (openTagFold node).1 ≠ [] } :: st.tagStack := by
      rw [h2stack, h1stack]
    obtain ⟨st3, hc, h3log, h3buf, h3stack, h3ctx, h3ents⟩ :=
      step_closeTag_pop w d st2 _ _ node.uri node.localName 1 1 hstack2
    refine ⟨st3, ?_, ?_, ?_⟩
    · show runTokens w d st
        (Token.openTag node 1 1 :: (serForest f ++ [Token.closeTag node.uri node.localName 1 1])) = _
      simp only [runTokens, ho]
      rw [runTokens_append, hf]
      simp only [runTokens, hc]
    · rw [h3ctx, h2ctx, h1ctx]
      by_cases hns : (openTagFold node).1 = [] <;> simp [hns]
    · rw [h3stack]
  termination_by t => sizeOf t

/-- Processing the serialisation of a well-formed forest preserves the
context depth and the frame stack and never throws. -/
theorem runTokens_serForest {σ : Type} (w : WalkerM σ) (d : List String) :
    ∀ (f : XForest) (st : PState σ),
      ∃ st', runTokens w d st (serForest f) = .ok st' ∧
        st'.ctxDepth = st.ctxDepth ∧ st'.tagStack = st.tagStack
  | .nil, st => ⟨st, rfl, rfl, rfl⟩
  | .cons t f, st => by
    obtain ⟨st1, h1, h1ctx, h1stack⟩ := runTokens_serTree w d t st
    obtain ⟨st2, h2, h2ctx, h2stack⟩ := runTokens_serForest w d f st1
    refine ⟨st2, ?_, by rw [h2ctx, h1ctx], by rw [h2stack, h1stack]⟩
    show runTokens w d st (serTree t ++ serForest f) = _
    rw [runTokens_append, h1]
    exact h2
  termination_by f => sizeOf f
end

/-! ### Claim C6 -/

/-- C6 (confirmed): every end-tag event flushes pending text first and
pops the `TagFrame`; an empty frame stack raises a fatal `stack underflow`
that the catch block classifies `ERR_WELLFORM` (malformed); the end-tag
transition uses the popped frame's recorded URI and local name, not the
tokenizer's closing-tag data `u`/`lo`; the namespace scope is popped
exactly when the frame recorded pushing one; and for any well-formed input
(a serialised forest) the scope pushes and pops balance exactly: starting
from the initial state the final scope stack is empty and the frame stack
is empty. -/
theorem claim6_end_tag_and_balance :
    (∀ (σ : Type) (w : WalkerM σ) (w0 : σ) (d : List String)
        (pre : List Token) (u lo : String) (l c : Nat) (rest : List Token)
        (st : PState σ),
      runTokens w d (initState w0) pre = .ok st → st.tagStack = [] →
      parseRun w w0 d (pre ++ Token.closeTag u lo l c :: rest) =
        ⟨.ERR_WELLFORM, (flushText w d l c st).errorCount + 1 + 1,
          (flushText w d l c st).diags ++ [⟨l - 1, 0, l - 1, c, "stack underflow"⟩],
          (flushText w d l c st).log⟩) ∧
    (∀ (σ : Type) (w : WalkerM σ) (d : List String) (st : PState σ)
        (ti : TagInfo) (rest : List TagInfo) (u lo : String) (l c : Nat),
      st.tagStack = ti :: rest →
      ∃ st', step w d st (Token.closeTag u lo l c) = .ok st' ∧
        st'.log = st.log ++ flushPart st.textBuf ++
          [Transition.endTag ti.uri ti.localName] ∧
        st'.tagStack = rest ∧
        st'.ctxDepth = st.ctxDepth - (if ti.hasContext then 1 else 0)) ∧
    (∀ (σ : Type) (w : WalkerM σ) (w0 : σ) (d : List String) (f : XForest),
      ∃ st', runTokens w d (initState w0) (serForest f) = .ok st' ∧
        st'.ctxDepth = 0 ∧ st'.tagStack = []) := by
  refine ⟨?_, ?_, ?_⟩
  · intro σ w w0 d pre u lo l c rest st h hstack
    have hstep : step w d st (Token.closeTag u lo l c) =
        .thrown "stack underflow" l c
          { flushText w d l c st with
            errorCount := (flushText w d l c st).errorCount + 1 } :=
      step_closeTag_underflow w d st u lo l c hstack
    have hrun : runTokens w d (initState w0)
        (pre ++ Token.closeTag u lo l c :: rest) =
        .thrown "stack underflow" l c
          { flushText w d l c st with
            errorCount := (flushText w d l c st).errorCount + 1 } := by
      rw [runTokens_append, h]
      show (match step w d st (Token.closeTag u lo l c) with
            | .ok st' => runTokens w d st' rest
            | .thrown m line col st' => .thrown m line col st') = _
      rw [hstep]
    unfold parseRun
    rw [hrun]
  · intro σ w d st ti rest u lo l c h
    obtain ⟨st', h1, h2, h3, h4, h5, h6⟩ :=
      step_closeTag_pop w d st ti rest u lo l c h
    exact ⟨st', h1, h2, h4, h5⟩
  · intro σ w w0 d f
    obtain ⟨st', h1, h2, h3⟩ := runTokens_serForest w d f (initState w0)
    exact ⟨st', h1, h2, h3⟩

/-- Concrete mid-run state used to witness the end-tag claims: one open
frame that pushed a namespace scope, pending text, scope depth 1. -/
def wStC6 : PState Unit :=
  { wst := (), error := .NO_ERR, errorCount := 0,
    tagStack := [⟨"u1", "e1", true⟩], textBuf := "hello",
    ctxDepth := 1, entities := [], diags := [], log := [] }

/-- Witness for C6: the underflow case on an immediate close tag, the
pop case on a one-frame stack (the transition uses the frame's names
`u1`/`e1`, not the tokenizer's `x`/`y`), and the balance on a concrete
two-level forest. -/
theorem claim6_end_tag_and_balance_witness :
    parseRun unitWalker () [] (([] : List Token) ++ Token.closeTag "x" "y" 2 7 :: []) =
      ⟨.ERR_WELLFORM,
        (flushText unitWalker [] 2 7 (initState ())).errorCount + 1 + 1,
        (flushText unitWalker [] 2 7 (initState ())).diags ++
          [⟨2 - 1, 0, 2 - 1, 7, "stack underflow"⟩],
        (flushText unitWalker [] 2 7 (initState ())).log⟩ ∧
    (∃ st', step unitWalker [] wStC6 (Token.closeTag "x" "y" 1 9) = .ok st' ∧
      st'.log = wStC6.log ++ flushPart wStC6.textBuf ++
        [Transition.endTag "u1" "e1"] ∧
      st'.tagStack = [] ∧
      st'.ctxDepth = wStC6.ctxDepth - 1) ∧
    (∃ st', runTokens unitWalker [] (initState ())
        (serForest (XForest.cons
          (XTree.elem ⟨"r", "", "r", []⟩
            (XForest.cons (XTree.txt "t") XForest.nil)) XForest.nil)) = .ok st' ∧
      st'.ctxDepth = 0 ∧ st'.tagStack = []) := by
  refine ⟨?_, ?_, ?_⟩
  · exact claim6_end_tag_and_balance.1 Unit unitWalker () [] [] "x" "y" 2 7 [] _ rfl rfl
  · obtain ⟨st', h1, h2, h3, h4⟩ :=
      claim6_end_tag_and_balance.2.1 Unit unitWalker [] wStC6 ⟨"u1", "e1", true⟩ []
        "x" "y" 1 9 rfl
    exact ⟨st', h1, h2, h3, h4⟩
  · exact claim6_end_tag_and_balance.2.2 Unit unitWalker () [] _

/-! ### Claim C2 -/

/-- A walker whose end-of-input check reports one outstanding error
(required content never seen). -/
def endErrWalker : WalkerM Unit :=
  { fire := fun _ _ => ((), none), atEnd := fun _ => some ["must have content"] }

/-- C2 (counterexample): when the automaton's end-of-input check reports
outstanding errors, the run is classified `ERR_WELLFORM` — the code's
malformed classification, which skips the Constraint Engine — and not
`ERR_VALID`, the content-invalid classification the claim asserts (the
claim's `CONTENT_INVALID` is the classification that proceeds to
constraint checking, i.e. `ERR_VALID`). -/
theorem claim2_counterexample :
    parseRun endErrWalker () [] [Token.streamEnd 1 1] =
      ⟨.ERR_WELLFORM, 1, [], []⟩ ∧
    ErrType.ERR_WELLFORM ≠ ErrType.ERR_VALID ∧
    invokesConstraintEngine .ERR_WELLFORM = false ∧
    invokesConstraintEngine .ERR_VALID = true :=
  ⟨rfl, by decide, rfl, rfl⟩

/-- C2 (amended): when the token stream ends and `walker.end()` reports
outstanding errors, the run is reclassified `ERR_WELLFORM` (the malformed
classification, skipping the Constraint Engine), the errors are added to
`errorCount`, and no diagnostics or transitions are produced; a clean
end-of-input check leaves the state untouched. -/
theorem claim2_amended_stream_end :
    (∀ (σ : Type) (w : WalkerM σ) (d : List String) (st : PState σ) (l c : Nat),
      (w.atEnd st.wst = none → step w d st (Token.streamEnd l c) = .ok st) ∧
      (∀ errs, w.atEnd st.wst = some errs →
        step w d st (Token.streamEnd l c) =
          .ok { st with error := .ERR_WELLFORM
                        errorCount := st.errorCount + errs.length })) ∧
    invokesConstraintEngine .ERR_WELLFORM = false := by
  refine ⟨fun σ w d st l c => ⟨?_, ?_⟩, rfl⟩
  · exact (step_streamEnd_state w d st l c).1
  · exact (step_streamEnd_state w d st l c).2

/-- Witness for C2 (amended): the end-of-input error of `endErrWalker`
reclassifies the initial state. -/
theorem claim2_amended_stream_end_witness :
    step endErrWalker [] (initState ()) (Token.streamEnd 1 1) =
      .ok { initState () with error := .ERR_WELLFORM, errorCount := 1 } :=
  (claim2_amended_stream_end.1 Unit endErrWalker [] (initState ()) 1 1).2
    ["must have content"] rfl

/-! ### Claim C8 -/

/-- The root tag of the concrete streams below. -/
def rootTag : SaxesTag := ⟨"root", "", "root", []⟩

/-- C8 (counterexample): text buffered after the last tag is never
emitted — the stream `<root></root>` followed by trailing text and the
end of input fires no text transition at stream end (the `end` handler
only calls `walker.end()` and never flushes `textBuf`), contradicting the
claim's "or at stream end". -/
theorem claim8_counterexample :
    (parseRun unitWalker () []
      [Token.openTag rootTag 1 1, Token.closeTag "" "" 1 5,
       Token.text " ", Token.streamEnd 1 9]).log =
      [Transition.enterStartTag "" "root", Transition.leaveStartTag,
       Transition.endTag "" "root"] ∧
    ∀ s, Transition.text s ∉
      (parseRun unitWalker () []
        [Token.openTag rootTag 1 1, Token.closeTag "" "" 1 5,
         Token.text " ", Token.streamEnd 1 9]).log := by
  have hlog : (parseRun unitWalker () []
      [Token.openTag rootTag 1 1, Token.closeTag "" "" 1 5,
       Token.text " ", Token.streamEnd 1 9]).log =
      [Transition.enterStartTag "" "root", Transition.leaveStartTag,
       Transition.endTag "" "root"] := by decide
  refine ⟨hlog, fun s => ?_⟩
  rw [hlog]
  simp

/-- C8 (amended): consecutive text tokens coalesce into one buffered
logical text node, and the buffer is flushed as a single text transition
immediately before the next start tag or end tag (never split); text still
buffered at stream end is discarded — the stream-end step fires no
transition and leaves the buffer as it was. -/
theorem claim8_amended_text_buffering :
    (∀ (σ : Type) (w : WalkerM σ) (d : List String) (st : PState σ)
        (a b : String) (rest : List Token),
      runTokens w d st (Token.text a :: Token.text b :: rest) =
        runTokens w d st (Token.text (a ++ b) :: rest)) ∧
    (∀ (σ : Type) (w : WalkerM σ) (d : List String) (st : PState σ)
        (node : SaxesTag) (l c : Nat),
      ∃ st', step w d st (Token.openTag node l c) = .ok st' ∧
        st'.log = st.log ++ flushPart st.textBuf ++ openFireList node ∧
        st'.textBuf = "") ∧
    (∀ (σ : Type) (w : WalkerM σ) (d : List String) (st : PState σ)
        (ti : TagInfo) (rest : List TagInfo) (u lo : String) (l c : Nat),
      st.tagStack = ti :: rest →
      ∃ st', step w d st (Token.closeTag u lo l c) = .ok st' ∧
        st'.log = st.log ++ flushPart st.textBuf ++
          [Transition.endTag ti.uri ti.localName] ∧
        st'.textBuf = "") ∧
    (∀ (σ : Type) (w : WalkerM σ) (d : List String) (st : PState σ) (l c : Nat),
      ∃ st', step w d st (Token.streamEnd l c) = .ok st' ∧
        st'.log = st.log ∧ st'.textBuf = st.textBuf) := by
  refine ⟨?_, ?_, ?_, ?_⟩
  · intro σ w d st a b rest
    show runTokens w d { st with textBuf := st.textBuf ++ a ++ b } rest
        = runTokens w d { st with textBuf := st.textBuf ++ (a ++ b) } rest
    rw [String.append_assoc]
  · intro σ w d st node l c
    obtain ⟨st', h1, h2, h3, h4, h5, h6⟩ := step_openTag_state w d st node l c
    exact ⟨st', h1, h2, h3⟩
  · intro σ w d st ti rest u lo l c h
    obtain ⟨st', h1, h2, h3, h4, h5, h6⟩ :=
      step_closeTag_pop w d st ti rest u lo l c h
    exact ⟨st', h1, h2, h3⟩
  · intro σ w d st l c
    cases hw : w.atEnd st.wst with
    | none => exact ⟨st, (step_streamEnd_state w d st l c).1 hw, rfl, rfl⟩
    | some errs =>
      exact ⟨_, (step_streamEnd_state w d st l c).2 errs hw, rfl, rfl⟩

/-- Concrete mid-run state used to witness the flush-on-end-tag claim:
one open frame and pending buffered text. -/
def wStC8 : PState Unit :=
  { wst := (), error := .NO_ERR, errorCount := 0,
    tagStack := [⟨"u2", "e2", false⟩], textBuf := "buffered",
    ctxDepth := 0, entities := [], diags := [], log := [] }

/-- Witness for C8 (amended): the buffered text of `wStC8` is flushed as
one text transition right before the end-tag transition. -/
theorem claim8_amended_text_buffering_witness :
    ∃ st', step unitWalker [] wStC8 (Token.closeTag "x" "y" 1 4) = .ok st' ∧
      st'.log = wStC8.log ++ flushPart wStC8.textBuf ++
        [Transition.endTag "u2" "e2"] ∧
      st'.textBuf = "" :=
  claim8_amended_text_buffering.2.2.1 Unit unitWalker [] wStC8
    ⟨"u2", "e2", false⟩ [] "x" "y" 1 4 rfl

/-! ### Claim C5 -/

/-- A walker that reports one error on every transition. -/
def errWalker : WalkerM Unit :=
  { fire := fun _ _ => ((), some ["e1"]), atEnd := fun _ => none }

/-- Step lemma: the tokenizer throwing on malformed markup aborts the run
at once with the thrown message and position. -/
theorem step_tokError {σ : Type} (w : WalkerM σ) (d : List String)
    (st : PState σ) (l c : Nat) (m : String) :
    step w d st (Token.tokError l c m) = .thrown m l c st := rfl

/-- C5 (counterexample): the claim fails on the code in two ways.  A
tokenizer failure at column 5 yields the diagnostic range
`(0, 0) .. (0, 5)` — anchored at column 0 of the line, five columns wide,
not a zero-width or single-column range at the failure column.  And when
automaton errors were already recorded before the tokenizer failed, the
run reports those diagnostics too (three in total), not exactly one. -/
theorem claim5_counterexample :
    parseRun unitWalker () [] [Token.tokError 1 5 "boom"] =
      ⟨.ERR_WELLFORM, 1, [⟨0, 0, 0, 5, "boom"⟩], []⟩ ∧
    ¬ (5 - 0 ≤ 1) ∧
    (parseRun errWalker () []
      [Token.openTag rootTag 1 10, Token.tokError 1 20 "boom"]).diags.length = 3 ∧
    (3 : Nat) ≠ 1 :=
  ⟨rfl, by decide, by decide, by decide⟩

/-- C5 (amended): whenever the tokenizer fails at any point, the run
aborts immediately (the remaining tokens are never processed), is
classified `ERR_WELLFORM` (malformed), and appends exactly one diagnostic
for the failure, with range from column 0 to the tokenizer's current
column on the current line, keeping any diagnostics accumulated before
the failure; the Constraint Engine is not invoked for this
classification. -/
theorem claim5_amended_malformed_abort :
    (∀ (σ : Type) (w : WalkerM σ) (w0 : σ) (d : List String)
        (pre : List Token) (l c : Nat) (msg : String) (rest : List Token)
        (st : PState σ),
      runTokens w d (initState w0) pre = .ok st →
      parseRun w w0 d (pre ++ Token.tokError l c msg :: rest) =
        ⟨.ERR_WELLFORM, st.errorCount + 1,
          st.diags ++ [⟨l - 1, 0, l - 1, c, msg⟩], st.log⟩) ∧
    invokesConstraintEngine .ERR_WELLFORM = false := by
  refine ⟨?_, rfl⟩
  intro σ w w0 d pre l c msg rest st h
  have hrun : runTokens w d (initState w0)
      (pre ++ Token.tokError l c msg :: rest) = .thrown msg l c st := by
    rw [runTokens_append, h]
    rfl
  unfold parseRun
  rw [hrun]

/-- The state reached after the single start tag of the C5 witness run. -/
def stepStateC5 : PState Unit :=
  match runTokens errWalker [] (initState ()) [Token.openTag rootTag 1 10] with
  | .ok st => st
  | .thrown _ _ _ st => st

/-- Witness for C5 (amended): a malformed token after one start tag with
an erroring walker; the two automaton diagnostics are kept and the
tokenizer-failure diagnostic is appended. -/
theorem claim5_amended_malformed_abort_witness :
    parseRun errWalker () []
      ([Token.openTag rootTag 1 10] ++ Token.tokError 1 20 "boom" :: []) =
      ⟨.ERR_WELLFORM,
        (stepStateC5).errorCount + 1,
        (stepStateC5).diags ++ [⟨0, 0, 0, 20, "boom"⟩],
        (stepStateC5).log⟩ :=
  claim5_amended_malformed_abort.1 Unit errWalker () [] [Token.openTag rootTag 1 10]
    1 20 "boom" [] stepStateC5 rfl

/-! ### Claim C9 -/

/-- Step lemma: a failing doctype scan throws the scanner's message at the
tokenizer's position, with `errorCount` already bumped when the failing
branch was the unexpected-construct one. -/
theorem step_doctype_error {σ : Type} (w : WalkerM σ) (d : List String)
    (st : PState σ) (s : String) (l c : Nat) (m : String) (b : Bool)
    (h : handleDoctype s st.entities = .error (m, b)) :
    step w d st (Token.doctype s l c) =
      .thrown m l c
        { st with errorCount := st.errorCount + (if b then 1 else 0) } := by
  simp only [step, h]

/-- Step lemma: a successful doctype scan installs the scanned entity
table and changes nothing else. -/
theorem step_doctype_ok {σ : Type} (w : WalkerM σ) (d : List String)
    (st : PState σ) (s : String) (l c : Nat) (ents : List (String × String))
    (h : handleDoctype s st.entities = .ok ents) :
    step w d st (Token.doctype s l c) = .ok { st with entities := ents } := by
  simp only [step, h]

/-- The doctype text `r [<!ENTITY a "x]y">]`, whose entity value contains
a `']'`. -/
def docC9 : String := "r [<!ENTITY a \"x]y\">]"

/-- C9 (counterexample): the scanner does not strip "after the last `]`".
The replacement `/].*?$/` removes from the *first* `']'` whose suffix
reaches the end of input without a line terminator — in
`r [<!ENTITY a "x]y">]` that is the `']'` inside the entity value, so the
cleaned text is the truncated `<!ENTITY a "x`, the entity pattern cannot
match, and the scan fails with the fatal unexpected-construct error;
stripping after the last `']'` as the claim states would clean to
`<!ENTITY a "x]y">` and register entity `a`. -/
theorem claim9_counterexample :
    handleDoctype docC9 defaultEntities =
      .error ("unexpected construct in DOCTYPE: " ++ docC9, true) ∧
    scanEntitiesF docC9 ((cleanDoctypeSpec docC9).length + 1) defaultEntities
      (cleanDoctypeSpec docC9) = .ok (defaultEntities ++ [("a", "x]y")]) ∧
    String.mk (cleanDoctype docC9) ≠ String.mk (cleanDoctypeSpec docC9) :=
  ⟨rfl, rfl, by decide⟩

/-- The duplicate-entity doctype of the spec §8 scenario. -/
def docC9dup : String := "r [<!ENTITY a \"1\"><!ENTITY a \"2\">]"

/-- C9 (amended): the internal-subset scanner strips everything before
the first `'['` (when no line terminator precedes it), strips from the
first `']'` whose following text contains no line terminator, strips
comments and trims; it then repeatedly matches the entity pattern from
the front, registering entities, throwing a fatal `redefining entity`
error on a duplicate name and a fatal `unexpected construct` error on
residual unmatched text; any such throw is caught and classified
`ERR_WELLFORM` (malformed) with one diagnostic at the tokenizer position.
In particular `<!ENTITY a "1"><!ENTITY a "2">` inside the internal subset
is a fatal duplicate-entity failure classified malformed. -/
theorem claim9_amended_doctype_scanner :
    (∀ (σ : Type) (w : WalkerM σ) (w0 : σ) (d : List String)
        (pre : List Token) (s : String) (l c : Nat) (rest : List Token)
        (st : PState σ) (m : String) (b : Bool),
      runTokens w d (initState w0) pre = .ok st →
      handleDoctype s st.entities = .error (m, b) →
      parseRun w w0 d (pre ++ Token.doctype s l c :: rest) =
        ⟨.ERR_WELLFORM, st.errorCount + (if b then 1 else 0) + 1,
          st.diags ++ [⟨l - 1, 0, l - 1, c, m⟩], st.log⟩) ∧
    (∀ (σ : Type) (w : WalkerM σ) (d : List String) (st : PState σ)
        (s : String) (l c : Nat) (ents : List (String × String)),
      handleDoctype s st.entities = .ok ents →
      step w d st (Token.doctype s l c) = .ok { st with entities := ents }) ∧
    parseRun unitWalker () [] [Token.doctype docC9dup 1 40] =
      ⟨.ERR_WELLFORM, 1, [⟨0, 0, 0, 40, "redefining entity: a"⟩], []⟩ := by
  refine ⟨?_, ?_, rfl⟩
  · intro σ w w0 d pre s l c rest st m b h hdoc
    have hrun : runTokens w d (initState w0)
        (pre ++ Token.doctype s l c :: rest) =
        .thrown m l c
          { st with errorCount := st.errorCount + (if b then 1 else 0) } := by
      rw [runTokens_append, h]
      show (match step w d st (Token.doctype s l c) with
            | .ok st' => runTokens w d st' rest
            | .thrown mm line col st' => .thrown mm line col st') = _
      rw [step_doctype_error w d st s l c m b hdoc]
    unfold parseRun
    rw [hrun]
  · intro σ w d st s l c ents h
    exact step_doctype_ok w d st s l c ents h

/-- Witness for C9 (amended): the duplicate-entity doctype throws from
the initial state and is classified malformed; a well-formed single
entity declaration registers `b`. -/
theorem claim9_amended_doctype_scanner_witness :
    parseRun unitWalker () [] (([] : List Token) ++ Token.doctype docC9dup 2 40 :: []) =
      ⟨.ERR_WELLFORM, (initState ()).errorCount + (if false then 1 else 0) + 1,
        (initState ()).diags ++ [⟨2 - 1, 0, 2 - 1, 40, "redefining entity: a"⟩],
        (initState ()).log⟩ ∧
    step unitWalker [] (initState ()) (Token.doctype "r [<!ENTITY b \"2\">]" 1 20) =
      .ok { initState () with entities := defaultEntities ++ [("b", "2")] } :=
  ⟨claim9_amended_doctype_scanner.1 Unit unitWalker () [] [] docC9dup 2 40 []
      (initState ()) "redefining entity: a" false rfl rfl,
   claim9_amended_doctype_scanner.2.1 Unit unitWalker [] (initState ())
      "r [<!ENTITY b \"2\">]" 1 20 (defaultEntities ++ [("b", "2")]) rfl⟩

/-! ### Claim C3 -/

/-- Store roundtrip: reading back the record just written. -/
theorem storeGet_storePut {γ : Type} (s : GStore γ) (uri : String)
    (g : StoredG γ) : storeGet (storePut s uri g) uri = g := by
  induction s with
  | nil => simp [storePut, storeGet]
  | cons kv rest ih =>
    obtain ⟨k, v⟩ := kv
    by_cases hk : k = uri
    · simp [storePut, storeGet, hk]
    · simp only [storePut, if_neg hk]
      have hbk : (uri == k) = false :=
        beq_eq_false_iff_ne.mpr (fun h => hk h.symm)
      simp only [storeGet, List.lookup, hbk] at ih ⊢
      exact ih

/-- Record extensionality for the stored grammar records. -/
theorem StoredG.eq_mk {γ : Type} (r : StoredG γ) (a : Option String)
    (b : Option γ) (h1 : r.rngURI = a) (h2 : r.grammar = b) : r = ⟨a, b⟩ := by
  cases r
  cases h1
  cases h2
  rfl

/-- After any resolution, the stored record for the document holds the
resolved schema reference and exactly the returned grammar. -/
theorem resolveGrammar_store {γ : Type} (compile : String → Option γ)
    (s : GStore γ) (uri schema : String) :
    storeGet (resolveGrammar compile s uri schema).1 uri =
      ⟨some schema, (resolveGrammar compile s uri schema).2.2⟩ := by
  by_cases hc : (storeGet s uri).rngURI = some schema
  · cases hg : (storeGet s uri).grammar with
    | some g0 =>
      simp [resolveGrammar, grammarPhase, cacheUpdate, hc, hg, storeGet_storePut]
    | none =>
      cases hcomp : compile schema with
      | some g1 =>
        simp [resolveGrammar, grammarPhase, cacheUpdate, hc, hg, hcomp,
          storeGet_storePut]
      | none =>
        simp only [resolveGrammar, grammarPhase, cacheUpdate, hc, hg, hcomp,
          storeGet_storePut, if_pos, if_true, if_false]
        simp [hc, hg, hcomp, storeGet_storePut]
        exact StoredG.eq_mk _ _ _ hc hg
  · cases hcomp : compile schema with
    | some g1 =>
      simp [resolveGrammar, grammarPhase, cacheUpdate, hc, hcomp, storeGet_storePut]
    | none =>
      simp [resolveGrammar, grammarPhase, cacheUpdate, hc, hcomp, storeGet_storePut]

/-- A resolution that starts from a cached grammar for the same schema
reference performs no compilation call and returns the cached grammar. -/
theorem resolveGrammar_cached {γ : Type} (compile : String → Option γ)
    (s : GStore γ) (uri schema : String) (g : γ)
    (h1 : (storeGet s uri).rngURI = some schema)
    (h2 : (storeGet s uri).grammar = some g) :
    (resolveGrammar compile s uri schema).2.1 = 0 ∧
    (resolveGrammar compile s uri schema).2.2 = some g := by
  constructor <;>
    simp [resolveGrammar, grammarPhase, cacheUpdate, h1, h2, storeGet_storePut]

/-- A compile-failing walker for the counterexample. -/
def failCompile : String → Option Nat := fun _ => none

/-- C3 (counterexample): with a compiler that fails, resolving the same
`(documentIdentity, schemaReference)` pair twice triggers a compilation
call both times — two calls in total, refuting "at most one compilation
call" and "compilation is not retried until the schema reference
changes". -/
theorem claim3_counterexample :
    (resolveGrammar failCompile ([] : GStore Nat) "u" "s").2.1 = 1 ∧
    (resolveGrammar failCompile
      (resolveGrammar failCompile ([] : GStore Nat) "u" "s").1 "u" "s").2.1 = 1 ∧
    ¬ ((1 : Nat) + 1 ≤ 1) :=
  ⟨rfl, rfl, by decide⟩

/-- C3 (amended): every resolution performs at most one compilation call;
when a resolution returns a grammar (from cache or fresh compilation), an
immediately repeated resolution with the same pair performs no compilation
call and returns the same grammar; but after a failed compilation the
grammar remains unset and the next resolution with the unchanged
reference retries compilation (one more call). -/
theorem claim3_amended_grammar_cache :
    (∀ (γ : Type) (compile : String → Option γ) (s : GStore γ)
        (uri schema : String),
      (resolveGrammar compile s uri schema).2.1 ≤ 1) ∧
    (∀ (γ : Type) (compile : String → Option γ) (s : GStore γ)
        (uri schema : String) (g : γ),
      (resolveGrammar compile s uri schema).2.2 = some g →
      (resolveGrammar compile (resolveGrammar compile s uri schema).1
        uri schema).2.1 = 0 ∧
      (resolveGrammar compile (resolveGrammar compile s uri schema).1
        uri schema).2.2 = some g) ∧
    (∀ (γ : Type) (compile : String → Option γ) (s : GStore γ)
        (uri schema : String),
      compile schema = none →
      (storeGet s uri).rngURI ≠ some schema →
      (resolveGrammar compile s uri schema).2.1 = 1 ∧
      (resolveGrammar compile s uri schema).2.2 = none ∧
      (storeGet (resolveGrammar compile s uri schema).1 uri).grammar = none ∧
      (resolveGrammar compile (resolveGrammar compile s uri schema).1
        uri schema).2.1 = 1) := by
  refine ⟨?_, ?_, ?_⟩
  · intro γ compile s uri schema
    by_cases hc : (storeGet s uri).rngURI = some schema
    · cases hg : (storeGet s uri).grammar with
      | some g0 => simp [resolveGrammar, grammarPhase, cacheUpdate, hc, hg,
          storeGet_storePut]
      | none =>
        cases hcomp : compile schema with
        | some g1 => simp [resolveGrammar, grammarPhase, cacheUpdate, hc, hg,
            hcomp, storeGet_storePut]
        | none => simp [resolveGrammar, grammarPhase, cacheUpdate, hc, hg,
            hcomp, storeGet_storePut]
    · cases hcomp : compile schema with
      | some g1 => simp [resolveGrammar, grammarPhase, cacheUpdate, hc, hcomp,
          storeGet_storePut]
      | none => simp [resolveGrammar, grammarPhase, cacheUpdate, hc, hcomp,
          storeGet_storePut]
  · intro γ compile s uri schema g h
    have hstore := resolveGrammar_store compile s uri schema
    rw [h] at hstore
    exact resolveGrammar_cached compile _ uri schema g
      (by rw [hstore]) (by rw [hstore])
  · intro γ compile s uri schema hcomp hc
    have h1 : (resolveGrammar compile s uri schema).2.1 = 1 ∧
        (resolveGrammar compile s uri schema).2.2 = none := by
      constructor <;>
        simp [resolveGrammar, grammarPhase, cacheUpdate, hc, hcomp,
          storeGet_storePut]
    have hstore := resolveGrammar_store compile s uri schema
    rw [h1.2] at hstore
    refine ⟨h1.1, h1.2, by rw [hstore], ?_⟩
    set s2 := (resolveGrammar compile s uri schema).1 with hs2
    simp [resolveGrammar, grammarPhase, cacheUpdate, hstore, hcomp,
      storeGet_storePut]

/-- Witness for C3 (amended): a successful compilation is cached (the
second resolution makes no call and returns the grammar), and a failed
compilation of a fresh reference is retried. -/
theorem claim3_amended_grammar_cache_witness :
    (resolveGrammar (fun _ => some (7 : Nat)) ([] : GStore Nat) "u" "s").2.1 ≤ 1 ∧
    ((resolveGrammar (fun _ => some (7 : Nat))
        (resolveGrammar (fun _ => some (7 : Nat)) ([] : GStore Nat) "u" "s").1
        "u" "s").2.1 = 0 ∧
      (resolveGrammar (fun _ => some (7 : Nat))
        (resolveGrammar (fun _ => some (7 : Nat)) ([] : GStore Nat) "u" "s").1
        "u" "s").2.2 = some 7) ∧
    (resolveGrammar failCompile ([] : GStore Nat) "u" "s").2.1 = 1 ∧
    (resolveGrammar failCompile ([] : GStore Nat) "u" "s").2.2 = none ∧
    (storeGet (resolveGrammar failCompile ([] : GStore Nat) "u" "s").1 "u").grammar
      = none ∧
    (resolveGrammar failCompile
      (resolveGrammar failCompile ([] : GStore Nat) "u" "s").1 "u" "s").2.1 = 1 :=
  ⟨claim3_amended_grammar_cache.1 Nat (fun _ => some 7) [] "u" "s",
   claim3_amended_grammar_cache.2.1 Nat (fun _ => some 7) [] "u" "s" 7 rfl,
   claim3_amended_grammar_cache.2.2 Nat failCompile [] "u" "s" rfl (by decide)⟩

end SXML
